import Mathlib

/-!
Verification model of the avif-converter batch pipeline
(`src/index.js`, `src/converter.js`, `src/cli.js`, `src/utils.js`).

Modelling choices (shallow embedding):
* filesystem paths are lists of segments (`Path := List String`); `path.join`
  is list append, `path.dirname` drops the last segment, `path.basename` is
  the last segment;
* `path.relative(root, p)` is modelled only for the case the code itself
  assumes (the comment in `converter.js` states inputRoot is a prefix of
  filePath): it drops the root prefix;
* byte sizes are naturals, timestamps are integers;
* the filesystem and the sharp image library are an oracle environment
  (`ConvEnv`) whose operations return `Except String`; a thrown JS exception
  is the `.error` case carrying the exception message;
* the summary arithmetic of `cli.js` is carried out over exact rationals,
  with `Math.round x` as `⌊x + 1/2⌋` (JS rounds half toward +∞);
* the sliding-window scheduler of `index.js` is a small-step transition
  relation: `start` launches the next pending job when the in-flight window
  is not full, `finish` completes any in-flight job and appends its result.
-/

namespace AvifConv

/-- A filesystem path, as the list of its segments. -/
abbrev Path : Type := List String

/-- Node `path.extname(name)`: the suffix of the last path portion from its final
dot, or `""` when there is no dot or the only dot is the leading character
(Node returns `""` for names like `".png"`). -/
def extname (s : String) : String :=
  let cs := s.data
  let afterDot := cs.reverse.takeWhile (fun c => c != '.')
  if cs.length ≤ afterDot.length + 1 then ""
  else String.mk ('.' :: afterDot.reverse)

/-- Node `path.basename(name, ext)` applied to a final path segment `fname`:
strips `ext` when it is a proper suffix of `fname` (Node keeps the name
unchanged when the suffix equals the whole name). -/
def basenameDrop (fname ext : String) : String :=
  if ext.data.isSuffixOf fname.data && fname != ext then
    String.mk (fname.data.take (fname.data.length - ext.data.length))
  else fname

/-- Node `path.basename(p)`: the last path segment. -/
def pathBasename (p : Path) : String := p.getLastD ""

/-- Node `path.relative(root, p)` under the code's stated precondition that
`root` is an ancestor of `p`: drop the root's segments. -/
def pathRelative (root p : Path) : Path := p.drop root.length

/-- From `converter.js` line 181: `relativePath = path.relative(inputRoot, filePath)`. -/
def relativePathOf (filePath inputRoot : Path) : Path := pathRelative inputRoot filePath

/-- From `converter.js` line 182: `outputDir = path.dirname(path.join(outputRoot, relativePath))`. -/
def outputDirOf (filePath inputRoot outputRoot : Path) : Path :=
  (outputRoot ++ relativePathOf filePath inputRoot).dropLast

/-- From `converter.js` line 183: `fileName = path.basename(filePath, path.extname(filePath))`. -/
def fileNameOf (filePath : Path) : String :=
  basenameDrop (pathBasename filePath) (extname (pathBasename filePath))

/-- From `converter.js` line 184: `outputFilePath = path.join(outputDir, fileName + ".avif")`. -/
def avifPathOf (filePath inputRoot outputRoot : Path) : Path :=
  outputDirOf filePath inputRoot outputRoot ++ [fileNameOf filePath ++ ".avif"]

/-- From `converter.js` lines 212–213: `fallbackFilePath = path.join(outputDir, path.basename(filePath))`. -/
def fallbackPathOf (filePath inputRoot outputRoot : Path) : Path :=
  outputDirOf filePath inputRoot outputRoot ++ [pathBasename filePath]

/-- The configuration record built in `index.js` lines 36–45 and threaded to
every job. -/
structure Config where
  input : String
  output : String
  quality : Int
  effort : Int
  pattern : String
  yes : Bool
  silent : Bool
  resize : Option String

/-- The parsed command-line options (`program.opts()`): numeric flags are
absent (`none`) or a parsed integer; `parseInt` NaN on malformed input is out
of the model. -/
structure CliOptions where
  input : Option String
  output : Option String
  quality : Option Int
  effort : Option Int
  resize : Option String
  pattern : Option String
  yes : Bool
  silent : Bool

/-- JS `v || d` for an optional numeric option value: `undefined` and `0` are
falsy and replaced by the default. -/
def jsOrInt (v : Option Int) (d : Int) : Int :=
  match v with
  | some x => if x = 0 then d else x
  | none => d

/-- JS `v || d` for an optional string option value: `undefined` and `""` are
falsy and replaced by the default. -/
def jsOrStr (v : Option String) (d : String) : String :=
  match v with
  | some s => if s = "" then d else s
  | none => d

/-- The `config` object assembled in `index.js` lines 36–45. -/
def buildConfig (options : CliOptions) : Config :=
  { input := jsOrStr options.input "./input"
    output := jsOrStr options.output "./output"
    quality := jsOrInt options.quality 80
    effort := jsOrInt options.effort 4
    pattern := jsOrStr options.pattern "*.\x7bpng,jpg,jpeg,webp\x7d"
    yes := options.yes
    silent := options.silent
    resize := options.resize }

/-- A written artifact as recorded in a success result: output path and
post-write byte size (`converter.js` lines 241–244). -/
structure Artifact where
  path : Path
  size : Nat
  deriving DecidableEq

/-- The fallback artifact record of a success result: path, post-write byte
size and the detected source format (`converter.js` lines 245–249). -/
structure FallbackArtifact where
  path : Path
  size : Nat
  format : String
  deriving DecidableEq

/-- The `ConversionResult` object returned by `convertImage`: the success
shape carries the artifacts, original size and duration; the failure shape
carries only the input path and the error message (`converter.js`
lines 238–260). -/
inductive ConversionResult where
  | ok (inputPath : Path) (avif : Artifact) (fallback : FallbackArtifact)
      (originalSize : Nat) (duration : Int) : ConversionResult
  | err (inputPath : Path) (error : String) : ConversionResult
  deriving DecidableEq

/-- The `success` flag of a result. -/
def ConversionResult.isSuccess : ConversionResult → Bool
  | .ok .. => true
  | .err .. => false

/-- The `inputPath` field, present in both result shapes. -/
def ConversionResult.inputPath : ConversionResult → Path
  | .ok p .. => p
  | .err p _ => p

/-- The `avif` field when populated: `none` on a failure result. -/
def ConversionResult.avifInfo : ConversionResult → Option Artifact
  | .ok _ a _ _ _ => some a
  | .err .. => none

/-- The `fallback` field when populated: `none` on a failure result. -/
def ConversionResult.fallbackInfo : ConversionResult → Option FallbackArtifact
  | .ok _ _ f _ _ => some f
  | .err .. => none

/-- The `originalSize` field when populated: `none` on a failure result. -/
def ConversionResult.originalSizeInfo : ConversionResult → Option Nat
  | .ok _ _ _ s _ => some s
  | .err .. => none

/-- The format-specific fallback encoding chosen in `converter.js`
lines 217–229: mozjpeg JPEG, palette PNG at compression level 9, WEBP, or no
format-specific step for any other detected format. -/
inductive FallbackEncoding where
  | jpeg (quality : Int) (mozjpeg : Bool)
  | png (quality : Int) (palette : Bool) (compressionLevel : Int)
  | webp (quality : Int)
  | plain
  deriving DecidableEq

/-- The branch on the detected `format` string (`converter.js` lines 217–229). -/
def fallbackEncoding (format : String) (quality : Int) : FallbackEncoding :=
  if format = "jpeg" ∨ format = "jpg" then .jpeg quality true
  else if format = "png" then .png quality true 9
  else if format = "webp" then .webp quality
  else .plain

/-- Oracle environment for the filesystem and the sharp library: each
operation the job performs either succeeds with its value or throws, the
`.error` case carrying the JS exception's message. The operations receive
exactly the arguments the code passes them. -/
structure ConvEnv where
  ensureDir : Path → Except String Unit
  statFile : Path → Except String Nat
  metadata : Path → Except String String
  avifToFile : Path → Path → Int → Int → String → Except String Unit
  fallbackToFile : Path → Path → FallbackEncoding → Except String Unit
  now1 : Int
  now2 : Int

/-- The fields gathered by the `try` block of `convertImage` when every step
succeeds. -/
structure OkData where
  avif : Artifact
  fallback : FallbackArtifact
  originalSize : Nat
  duration : Int
  deriving DecidableEq

/-- The body of `convertImage`'s `try` block (`converter.js` lines 173–252):
path derivation, directory creation, stat, metadata, AVIF encode and stat,
format-specific fallback encode and stat; the first throwing step aborts the
rest. -/
def convertImageE (env : ConvEnv) (filePath inputRoot outputRoot : Path)
    (options : Config) : Except String OkData :=
  let outputDir := outputDirOf filePath inputRoot outputRoot
  let outputFilePath := avifPathOf filePath inputRoot outputRoot
  match env.ensureDir outputDir with
  | .error e => .error e
  | .ok _ =>
    match env.statFile filePath with
    | .error e => .error e
    | .ok originalSize =>
      match env.metadata filePath with
      | .error e => .error e
      | .ok format =>
        match env.avifToFile filePath outputFilePath options.quality
            options.effort "4:4:4" with
        | .error e => .error e
        | .ok _ =>
          match env.statFile outputFilePath with
          | .error e => .error e
          | .ok avifSize =>
            let fallbackFilePath := fallbackPathOf filePath inputRoot outputRoot
            match env.fallbackToFile filePath fallbackFilePath
                (fallbackEncoding format options.quality) with
            | .error e => .error e
            | .ok _ =>
              match env.statFile fallbackFilePath with
              | .error e => .error e
              | .ok fallbackSize =>
                .ok { avif := ⟨outputFilePath, avifSize⟩
                      fallback := ⟨fallbackFilePath, fallbackSize, format⟩
                      originalSize := originalSize
                      duration := env.now2 - env.now1 }

/-- Function `convertImage` (`converter.js` lines 172–261): the `try`/`catch` wrapper
turning a thrown exception into a failure result with the input path and the
exception's message. -/
def convertImage (env : ConvEnv) (filePath inputRoot outputRoot : Path)
    (options : Config) : ConversionResult :=
  match convertImageE env filePath inputRoot outputRoot options with
  | .ok d => .ok filePath d.avif d.fallback d.originalSize d.duration
  | .error e => .err filePath e

/-- State of the sliding-window loop of `index.js` lines 117–145: the files
not yet started, the `executing` array of in-flight jobs, and the `results`
array in completion order. -/
structure SchedState (α β : Type) where
  pending : List α
  inflight : List α
  results : List β
  deriving DecidableEq

/-- One step of the scheduler: `start` launches the next pending job when the
window holds fewer than `N` jobs (after `executing.length >= N` the loop
awaits `Promise.race`, so a new job starts only once a slot is free);
`finish` completes any in-flight job, removes it from `executing` and appends
its result to `results`. -/
inductive SchedStep {α β : Type} (N : Nat) (run : α → β) :
    SchedState α β → SchedState α β → Prop where
  | start (j : α) (rest infl : List α) (res : List β) (h : infl.length < N) :
      SchedStep N run ⟨j :: rest, infl, res⟩ ⟨rest, infl ++ [j], res⟩
  | finish (pend l₁ l₂ : List α) (j : α) (res : List β) :
      SchedStep N run ⟨pend, l₁ ++ j :: l₂, res⟩ ⟨pend, l₁ ++ l₂, res ++ [run j]⟩

/-- A scheduler state reachable from the initial state holding the whole job
list with nothing in flight and no results. -/
def Reachable {α β : Type} (N : Nat) (run : α → β) (jobs : List α)
    (s : SchedState α β) : Prop :=
  Relation.ReflTransGen (SchedStep N run) ⟨jobs, [], []⟩ s

/-- From `cli.js` line 55: `results.filter(r => r.success).length`. -/
def successCount (results : List ConversionResult) : Nat :=
  (results.filter (fun r => r.isSuccess)).length

/-- From `cli.js` line 56: `results.filter(r => !r.success).length`. -/
def failCount (results : List ConversionResult) : Nat :=
  (results.filter (fun r => !r.isSuccess)).length

/-- JS `r.originalSize || 0`: failure results have no `originalSize`. -/
def originalSizeOrZero (r : ConversionResult) : Nat :=
  match r.originalSizeInfo with
  | some s => s
  | none => 0

/-- JS `r.avif?.size || 0`. -/
def avifSizeOrZero (r : ConversionResult) : Nat :=
  match r.avifInfo with
  | some a => a.size
  | none => 0

/-- JS `r.fallback?.size || 0`. -/
def fallbackSizeOrZero (r : ConversionResult) : Nat :=
  match r.fallbackInfo with
  | some f => f.size
  | none => 0

/-- From `cli.js` line 58: `results.reduce((acc, r) => acc + (r.originalSize || 0), 0)`. -/
def totalOriginalSize (results : List ConversionResult) : Nat :=
  results.foldl (fun acc r => acc + originalSizeOrZero r) 0

/-- From `cli.js` line 59: `results.reduce((acc, r) => acc + (r.avif?.size || 0), 0)`. -/
def totalAvifSize (results : List ConversionResult) : Nat :=
  results.foldl (fun acc r => acc + avifSizeOrZero r) 0

/-- From `cli.js` line 60: `results.reduce((acc, r) => acc + (r.fallback?.size || 0), 0)`. -/
def totalFallbackSize (results : List ConversionResult) : Nat :=
  results.foldl (fun acc r => acc + fallbackSizeOrZero r) 0

/-- JS `Math.round`: round half toward positive infinity. -/
def jsRound (x : ℚ) : Int := ⌊x + 1 / 2⌋

/-- From `cli.js` lines 62–68: `total > 0 ? Math.round((1 - part / total) * 100) : 0`,
for either artifact class. -/
def reductionPercent (totalOriginal totalArtifact : Nat) : Int :=
  if 0 < totalOriginal then
    jsRound ((1 - (totalArtifact : ℚ) / (totalOriginal : ℚ)) * 100)
  else 0

/-- The AVIF reduction percentage printed by the summary. -/
def avifReduction (results : List ConversionResult) : Int :=
  reductionPercent (totalOriginalSize results) (totalAvifSize results)

/-- The fallback reduction percentage printed by the summary. -/
def fallbackReduction (results : List ConversionResult) : Int :=
  reductionPercent (totalOriginalSize results) (totalFallbackSize results)

/-- From `utils.js`: the effect of `fs.rm(dirPath, recursive, force)` on the file set: every file
at or below `dirPath` disappears. -/
def rmrf (dirPath : Path) (fs : List Path) : List Path :=
  fs.filter (fun p => !dirPath.isPrefixOf p)

/-- From `utils.js` lines 52–59, `cleanDirectory`: remove the directory tree and
recreate the empty directory; a failing `rm`/`mkdir` throws with a wrapped
message. The `rmOutcome` oracle says whether the underlying `fs.rm` throws. -/
def cleanDirectory (rmOutcome : Option String) (dirPath : Path)
    (fs : List Path) : Except String (List Path) :=
  match rmOutcome with
  | none => .ok (rmrf dirPath fs)
  | some m => .error ("Failed to clean directory. " ++ m)

/-- From `index.js` lines 93–106: `cleanDirectory(outputPath)` wrapped in
`try`/`catch`; on a throw a warning is printed and the run continues with the
output tree untouched (followed by `ensureDirectory`, which creates no
files). -/
def prepareOutputRoot (rmOutcome : Option String) (outputPath : Path)
    (fs : List Path) : List Path :=
  match cleanDirectory rmOutcome outputPath fs with
  | .ok fs2 => fs2
  | .error _ => fs

section SchedulerLemmas

variable {α β : Type}

/-- Window invariant: every reachable scheduler state keeps the `executing`
array within the concurrency limit. -/
theorem reachable_inflight_le (N : Nat) (run : α → β) (jobs : List α)
    (s : SchedState α β) (h : Reachable N run jobs s) :
    s.inflight.length ≤ N := by
  induction h with
  | refl => simp
  | tail _ hstep ih =>
    cases hstep with
    | start j rest infl res hlt => simpa using hlt
    | finish pend l₁ l₂ j res =>
      simp only [List.length_append, List.length_cons] at ih ⊢
      omega

/-- Conservation invariant: across any reachable state, the runs of the
pending jobs, the runs of the in-flight jobs, and the collected results
together are exactly the runs of the original job list. -/
theorem reachable_conservation (N : Nat) (run : α → β) (jobs : List α)
    (s : SchedState α β) (h : Reachable N run jobs s) :
    (↑(s.pending.map run) + ↑(s.inflight.map run) + ↑s.results : Multiset β) =
      ↑(jobs.map run) := by
  induction h with
  | refl => simp
  | tail _ hstep ih =>
    cases hstep with
    | start j rest infl res hlt =>
      simp only [List.map_cons, List.map_append, List.map_nil,
        ← Multiset.coe_add, ← Multiset.cons_coe, Multiset.coe_singleton,
        ← Multiset.singleton_add] at ih ⊢
      rw [← ih]; abel
    | finish pend l₁ l₂ j res =>
      simp only [List.map_cons, List.map_append, List.map_nil,
        ← Multiset.coe_add, ← Multiset.cons_coe, Multiset.coe_singleton,
        ← Multiset.singleton_add] at ih ⊢
      rw [← ih]; abel

end SchedulerLemmas

/-- Splitting a result list by the success flag accounts for every result. -/
theorem successCount_add_failCount (results : List ConversionResult) :
    successCount results + failCount results = results.length := by
  have h := (List.filter_append_perm (fun r => r.isSuccess) results).length_eq
  simpa [successCount, failCount] using h

/-- C1: for every job list of length M ≥ 0 and concurrency limit N ≥ 1, at no
instant during the scheduler's execution are more than N jobs simultaneously
in flight: every state reachable by the sliding-window loop of `index.js`
lines 117–145 keeps the `executing` array at no more than N entries. -/
theorem concurrency_window_bounded {α β : Type} (N : Nat) (run : α → β)
    (jobs : List α) (s : SchedState α β) (hN : 1 ≤ N)
    (h : Reachable N run jobs s) : s.inflight.length ≤ N :=
  reachable_inflight_le N run jobs s h

/-- Witness for `concurrency_window_bounded`: limit 2, one job started. -/
theorem concurrency_window_bounded_witness :
    (⟨[], [0], []⟩ : SchedState Nat Nat).inflight.length ≤ 2 :=
  concurrency_window_bounded 2 (fun n => n) [0] ⟨[], [0], []⟩ (by decide)
    (Relation.ReflTransGen.single (SchedStep.start 0 [] [] [] (by decide)))

/-- C3: for every job list of length M, any completed scheduler run (nothing
pending, nothing in flight) holds exactly M results — each job contributing
exactly its own result, never zero, never more than one (the result multiset
is exactly the jobs' results) — and the summary's successCount plus failCount
equals M. -/
theorem scheduler_exactly_m_results {α : Type} (N : Nat)
    (run : α → ConversionResult) (jobs : List α)
    (s : SchedState α ConversionResult) (h : Reachable N run jobs s)
    (hp : s.pending = []) (hi : s.inflight = []) :
    s.results.length = jobs.length ∧
    List.Perm s.results (jobs.map run) ∧
    successCount s.results + failCount s.results = jobs.length := by
  have hc := reachable_conservation N run jobs s h
  rw [hp, hi] at hc
  simp only [List.map_nil, Multiset.coe_nil, zero_add] at hc
  have hperm : List.Perm s.results (jobs.map run) := Multiset.coe_eq_coe.mp hc
  have hlen : s.results.length = jobs.length := by
    simpa using hperm.length_eq
  exact ⟨hlen, hperm, by rw [successCount_add_failCount, hlen]⟩

/-- Witness for `scheduler_exactly_m_results`: two jobs through a window of
width 2, both failing, driven to completion. -/
theorem scheduler_exactly_m_results_witness :
    (⟨[], [], [ConversionResult.err ["in", "a.png"] "boom",
        ConversionResult.err ["in", "b.png"] "boom"]⟩ :
        SchedState Path ConversionResult).results.length =
      ([["in", "a.png"], ["in", "b.png"]] : List Path).length ∧
    List.Perm (⟨[], [], [ConversionResult.err ["in", "a.png"] "boom",
        ConversionResult.err ["in", "b.png"] "boom"]⟩ :
        SchedState Path ConversionResult).results
      (([["in", "a.png"], ["in", "b.png"]] : List Path).map
        (fun p => ConversionResult.err p "boom")) ∧
    successCount (⟨[], [], [ConversionResult.err ["in", "a.png"] "boom",
        ConversionResult.err ["in", "b.png"] "boom"]⟩ :
        SchedState Path ConversionResult).results +
      failCount (⟨[], [], [ConversionResult.err ["in", "a.png"] "boom",
        ConversionResult.err ["in", "b.png"] "boom"]⟩ :
        SchedState Path ConversionResult).results =
      ([["in", "a.png"], ["in", "b.png"]] : List Path).length :=
  scheduler_exactly_m_results 2 (fun p => ConversionResult.err p "boom")
    [["in", "a.png"], ["in", "b.png"]]
    ⟨[], [], [ConversionResult.err ["in", "a.png"] "boom",
      ConversionResult.err ["in", "b.png"] "boom"]⟩
    (Relation.ReflTransGen.tail
      (Relation.ReflTransGen.tail
        (Relation.ReflTransGen.tail
          (Relation.ReflTransGen.single
            (SchedStep.start ["in", "a.png"] [["in", "b.png"]] [] [] (by decide)))
          (SchedStep.start ["in", "b.png"] [] [["in", "a.png"]] [] (by decide)))
        (SchedStep.finish [] [] [["in", "b.png"]] ["in", "a.png"] []))
      (SchedStep.finish [] [] [] ["in", "b.png"]
        [ConversionResult.err ["in", "a.png"] "boom"]))
    rfl rfl

/-- C7: for an empty input list, the scheduler completes immediately: the
initial state is the only reachable state, so the result collection is empty,
and the summary reports 0 successes, 0 failures and 0% reduction for both
artifact classes (the guard `totalOriginalSize > 0` avoids the division). -/
theorem empty_input_immediate (N : Nat) (run : Path → ConversionResult)
    (s : SchedState Path ConversionResult) (h : Reachable N run [] s) :
    s = ⟨[], [], []⟩ ∧ s.results = [] ∧ successCount s.results = 0 ∧
    failCount s.results = 0 ∧ avifReduction s.results = 0 ∧
    fallbackReduction s.results = 0 := by
  have hc := reachable_conservation N run [] s h
  simp only [List.map_nil, Multiset.coe_nil, add_eq_zero, Multiset.coe_eq_zero,
    List.map_eq_nil_iff] at hc
  obtain ⟨⟨hp, hi⟩, hr⟩ := hc
  have hs : s = ⟨[], [], []⟩ := by
    cases s
    simp only [SchedState.mk.injEq]
    exact ⟨hp, hi, hr⟩
  subst hs
  refine ⟨rfl, rfl, rfl, rfl, ?_, ?_⟩ <;> rfl

/-- Witness for `empty_input_immediate`: the initial state itself. -/
theorem empty_input_immediate_witness :
    (⟨[], [], []⟩ : SchedState Path ConversionResult) = ⟨[], [], []⟩ ∧
    (⟨[], [], []⟩ : SchedState Path ConversionResult).results = [] ∧
    successCount (⟨[], [], []⟩ : SchedState Path ConversionResult).results = 0 ∧
    failCount (⟨[], [], []⟩ : SchedState Path ConversionResult).results = 0 ∧
    avifReduction (⟨[], [], []⟩ : SchedState Path ConversionResult).results = 0 ∧
    fallbackReduction (⟨[], [], []⟩ : SchedState Path ConversionResult).results = 0 :=
  empty_input_immediate 4 (fun p => ConversionResult.err p "e") ⟨[], [], []⟩
    Relation.ReflTransGen.refl

/-- A successful pipeline run records exactly the derived artifact paths. -/
theorem convertImageE_ok_paths (env : ConvEnv)
    (filePath inputRoot outputRoot : Path) (options : Config) (d : OkData)
    (h : convertImageE env filePath inputRoot outputRoot options = .ok d) :
    d.avif.path = avifPathOf filePath inputRoot outputRoot ∧
    d.fallback.path = fallbackPathOf filePath inputRoot outputRoot := by
  simp only [convertImageE] at h
  cases h1 : env.ensureDir (outputDirOf filePath inputRoot outputRoot) <;>
    simp only [h1] at h
  · exact absurd h (by simp)
  cases h2 : env.statFile filePath <;> simp only [h2] at h
  · exact absurd h (by simp)
  cases h3 : env.metadata filePath with
  | error e => simp only [h3] at h; exact absurd h (by simp)
  | ok format =>
    simp only [h3] at h
    cases h4 : env.avifToFile filePath (avifPathOf filePath inputRoot outputRoot)
        options.quality options.effort "4:4:4" <;> simp only [h4] at h
    · exact absurd h (by simp)
    cases h5 : env.statFile (avifPathOf filePath inputRoot outputRoot) <;>
      simp only [h5] at h
    · exact absurd h (by simp)
    cases h6 : env.fallbackToFile filePath
        (fallbackPathOf filePath inputRoot outputRoot)
        (fallbackEncoding format options.quality) <;> simp only [h6] at h
    · exact absurd h (by simp)
    cases h7 : env.statFile (fallbackPathOf filePath inputRoot outputRoot) <;>
      simp only [h7] at h
    · exact absurd h (by simp)
    simp only [Except.ok.injEq] at h
    rw [← h]
    exact ⟨rfl, rfl⟩

/-- C2: `convertImage` never raises an uncaught failure: it is a total
function into `ConversionResult`; whenever any pipeline step throws, the
result is the failure shape carrying the job's input path and the triggering
error's message, with no artifact fields populated; and in the scheduler,
every job of a completed batch has its own result collected, regardless of
the outcomes of the others. -/
theorem convertImage_captures_failures (env : ConvEnv)
    (filePath inputRoot outputRoot : Path) (options : Config) :
    (convertImage env filePath inputRoot outputRoot options).inputPath =
      filePath ∧
    (∀ m, convertImageE env filePath inputRoot outputRoot options = .error m →
      convertImage env filePath inputRoot outputRoot options =
        .err filePath m) ∧
    ((convertImage env filePath inputRoot outputRoot options).isSuccess =
        false →
      (convertImage env filePath inputRoot outputRoot options).avifInfo =
          none ∧
      (convertImage env filePath inputRoot outputRoot options).fallbackInfo =
          none ∧
      (convertImage env filePath inputRoot outputRoot
          options).originalSizeInfo = none) ∧
    (∀ (N : Nat) (jobs : List Path) (s : SchedState Path ConversionResult),
      Reachable N (fun f => convertImage env f inputRoot outputRoot options)
        jobs s →
      s.pending = [] → s.inflight = [] →
      ∀ f ∈ jobs,
        convertImage env f inputRoot outputRoot options ∈ s.results) := by
  refine ⟨?_, ?_, ?_, ?_⟩
  · unfold convertImage
    cases convertImageE env filePath inputRoot outputRoot options <;> rfl
  · intro m hm
    unfold convertImage
    rw [hm]
  · unfold convertImage
    cases convertImageE env filePath inputRoot outputRoot options <;>
      simp [ConversionResult.isSuccess, ConversionResult.avifInfo,
        ConversionResult.fallbackInfo, ConversionResult.originalSizeInfo]
  · intro N jobs s h hp hi f hf
    have hc := reachable_conservation N
      (fun f => convertImage env f inputRoot outputRoot options) jobs s h
    rw [hp, hi] at hc
    simp only [List.map_nil, Multiset.coe_nil, zero_add] at hc
    have hperm := Multiset.coe_eq_coe.mp hc
    exact hperm.mem_iff.mpr (List.mem_map_of_mem _ hf)

/-- Witness for `convertImage_captures_failures`: an environment whose `stat`
throws ENOENT; the job yields the failure result with that message and no
artifacts. -/
theorem convertImage_captures_failures_witness :
    convertImage
        ⟨fun _ => .ok (), fun _ => .error "ENOENT: no such file or directory",
          fun _ => .ok "png", fun _ _ _ _ _ => .ok (), fun _ _ _ => .ok (),
          0, 0⟩
        ["in", "a.png"] ["in"] ["out"]
        ⟨"./input", "./output", 80, 4, "p", false, false, none⟩ =
      .err ["in", "a.png"] "ENOENT: no such file or directory" ∧
    (convertImage
        ⟨fun _ => .ok (), fun _ => .error "ENOENT: no such file or directory",
          fun _ => .ok "png", fun _ _ _ _ _ => .ok (), fun _ _ _ => .ok (),
          0, 0⟩
        ["in", "a.png"] ["in"] ["out"]
        ⟨"./input", "./output", 80, 4, "p", false, false, none⟩).avifInfo =
      none :=
  ⟨(convertImage_captures_failures
      ⟨fun _ => .ok (), fun _ => .error "ENOENT: no such file or directory",
        fun _ => .ok "png", fun _ _ _ _ _ => .ok (), fun _ _ _ => .ok (),
        0, 0⟩
      ["in", "a.png"] ["in"] ["out"]
      ⟨"./input", "./output", 80, 4, "p", false, false, none⟩).2.1
      "ENOENT: no such file or directory" rfl,
    ((convertImage_captures_failures
      ⟨fun _ => .ok (), fun _ => .error "ENOENT: no such file or directory",
        fun _ => .ok "png", fun _ _ _ _ _ => .ok (), fun _ _ _ => .ok (),
        0, 0⟩
      ["in", "a.png"] ["in"] ["out"]
      ⟨"./input", "./output", 80, 4, "p", false, false, none⟩).2.2.1
      rfl).1⟩

/-- C8: the `resize` configuration value is threaded through `Config` but
never read by `convertImage`: two configurations differing only in `resize`
produce the identical `ConversionResult` (hence identical artifacts) on every
input and in every environment — resize is a no-op in the conversion
algorithm. -/
theorem resize_is_noop (env : ConvEnv) (filePath inputRoot outputRoot : Path)
    (options : Config) (r : Option String) :
    convertImage env filePath inputRoot outputRoot
        { options with resize := r } =
      convertImage env filePath inputRoot outputRoot options := rfl

/-- C10: a command line supplying `--quality 0` or `--effort 0` does not
yield those values: JS `options.quality || 80` and `options.effort || 4`
treat 0 as falsy, so the effective Config holds the defaults 80 and 4, and no
flag value at all can make the effective quality or effort equal 0. -/
theorem zero_flags_replaced_by_defaults (options : CliOptions) :
    (buildConfig { options with quality := some 0 }).quality = 80 ∧
    (buildConfig { options with effort := some 0 }).effort = 4 ∧
    (∀ q : Option Int, (buildConfig { options with quality := q }).quality ≠ 0) ∧
    (∀ e : Option Int, (buildConfig { options with effort := e }).effort ≠ 0) := by
  refine ⟨rfl, rfl, ?_, ?_⟩ <;>
    rintro (_ | x) <;> simp only [buildConfig, jsOrInt] <;> omega

/-- Counterexample to C9 as stated: a run whose `fs.rm` of the output root
throws (e.g. a permission error) still reaches the conversion phase — the
`catch` in `index.js` lines 95–105 only warns — with the pre-existing file
under output-root still present, so the output root is not deleted on every
such run. -/
theorem clean_skipped_on_rm_error :
    prepareOutputRoot (some "EACCES: permission denied") ["out"]
        [["out", "old.png"]] = [["out", "old.png"]] ∧
    (["out"] : Path).isPrefixOf ["out", "old.png"] = true ∧
    ["out", "old.png"] ∈
      prepareOutputRoot (some "EACCES: permission denied") ["out"]
        [["out", "old.png"]] := by
  refine ⟨rfl, rfl, ?_⟩
  simp [prepareOutputRoot, cleanDirectory]

/-- C9 (amended): on every run that reaches the conversion phase and whose
output-root cleanup succeeds, the entire output root is first deleted
recursively and recreated empty — every file that existed under output-root
is removed, so the run's filesystem effect is not limited to adding artifact
files; when the cleanup throws, the run continues with the pre-existing tree
untouched. -/
theorem output_root_cleared_when_rm_succeeds (outputPath : Path)
    (fs : List Path) :
    (∀ p, p ∈ fs → outputPath.isPrefixOf p = true →
      p ∉ prepareOutputRoot none outputPath fs) ∧
    (∀ m, prepareOutputRoot (some m) outputPath fs = fs) := by
  constructor
  · intro p _ hpre hmem
    simp only [prepareOutputRoot, cleanDirectory, rmrf, List.mem_filter,
      Bool.not_eq_eq_eq_not, Bool.not_true] at hmem
    rw [hpre] at hmem
    exact absurd hmem.2 (by simp)
  · intro m
    rfl

/-- Witness for `output_root_cleared_when_rm_succeeds`: a pre-existing file
under the output root is gone after a successful cleanup. -/
theorem output_root_cleared_witness :
    ["out", "old.png"] ∉
      prepareOutputRoot none ["out"] [["out", "old.png"], ["keep", "x.png"]] :=
  (output_root_cleared_when_rm_succeeds ["out"]
      [["out", "old.png"], ["keep", "x.png"]]).1
    ["out", "old.png"] (by simp) rfl

/-- The summary's `reduce` accumulations are sums over the result list. -/
theorem foldl_add_eq_sum (f : ConversionResult → Nat)
    (l : List ConversionResult) (n : Nat) :
    l.foldl (fun acc r => acc + f r) n = n + (l.map f).sum := by
  induction l generalizing n with
  | nil => simp
  | cons a t ih => simp [ih]; omega

/-- C5: every aggregate the summary computes — successCount, failCount, the
three byte totals and both reduction percentages — is invariant under
permutation of the result collection. -/
theorem summary_perm_invariant (rs rs' : List ConversionResult)
    (h : List.Perm rs rs') :
    successCount rs = successCount rs' ∧
    failCount rs = failCount rs' ∧
    totalOriginalSize rs = totalOriginalSize rs' ∧
    totalAvifSize rs = totalAvifSize rs' ∧
    totalFallbackSize rs = totalFallbackSize rs' ∧
    avifReduction rs = avifReduction rs' ∧
    fallbackReduction rs = fallbackReduction rs' := by
  have horig : totalOriginalSize rs = totalOriginalSize rs' := by
    simp only [totalOriginalSize, foldl_add_eq_sum, Nat.zero_add]
    exact (h.map originalSizeOrZero).sum_eq
  have havif : totalAvifSize rs = totalAvifSize rs' := by
    simp only [totalAvifSize, foldl_add_eq_sum, Nat.zero_add]
    exact (h.map avifSizeOrZero).sum_eq
  have hfb : totalFallbackSize rs = totalFallbackSize rs' := by
    simp only [totalFallbackSize, foldl_add_eq_sum, Nat.zero_add]
    exact (h.map fallbackSizeOrZero).sum_eq
  refine ⟨(h.filter _).length_eq, (h.filter _).length_eq, horig, havif, hfb,
    ?_, ?_⟩
  · rw [avifReduction, avifReduction, horig, havif]
  · rw [fallbackReduction, fallbackReduction, horig, hfb]

/-- Witness for `summary_perm_invariant`: one success and one failure, in the
two possible orders. -/
theorem summary_perm_invariant_witness :
    successCount [ConversionResult.ok ["in", "a.png"] ⟨["out", "a.avif"], 40⟩
        ⟨["out", "a.png"], 60, "png"⟩ 100 5,
      ConversionResult.err ["in", "b.png"] "boom"] =
      successCount [ConversionResult.err ["in", "b.png"] "boom",
        ConversionResult.ok ["in", "a.png"] ⟨["out", "a.avif"], 40⟩
          ⟨["out", "a.png"], 60, "png"⟩ 100 5] ∧
    failCount [ConversionResult.ok ["in", "a.png"] ⟨["out", "a.avif"], 40⟩
        ⟨["out", "a.png"], 60, "png"⟩ 100 5,
      ConversionResult.err ["in", "b.png"] "boom"] =
      failCount [ConversionResult.err ["in", "b.png"] "boom",
        ConversionResult.ok ["in", "a.png"] ⟨["out", "a.avif"], 40⟩
          ⟨["out", "a.png"], 60, "png"⟩ 100 5] ∧
    totalOriginalSize [ConversionResult.ok ["in", "a.png"]
        ⟨["out", "a.avif"], 40⟩ ⟨["out", "a.png"], 60, "png"⟩ 100 5,
      ConversionResult.err ["in", "b.png"] "boom"] =
      totalOriginalSize [ConversionResult.err ["in", "b.png"] "boom",
        ConversionResult.ok ["in", "a.png"] ⟨["out", "a.avif"], 40⟩
          ⟨["out", "a.png"], 60, "png"⟩ 100 5] ∧
    totalAvifSize [ConversionResult.ok ["in", "a.png"]
        ⟨["out", "a.avif"], 40⟩ ⟨["out", "a.png"], 60, "png"⟩ 100 5,
      ConversionResult.err ["in", "b.png"] "boom"] =
      totalAvifSize [ConversionResult.err ["in", "b.png"] "boom",
        ConversionResult.ok ["in", "a.png"] ⟨["out", "a.avif"], 40⟩
          ⟨["out", "a.png"], 60, "png"⟩ 100 5] ∧
    totalFallbackSize [ConversionResult.ok ["in", "a.png"]
        ⟨["out", "a.avif"], 40⟩ ⟨["out", "a.png"], 60, "png"⟩ 100 5,
      ConversionResult.err ["in", "b.png"] "boom"] =
      totalFallbackSize [ConversionResult.err ["in", "b.png"] "boom",
        ConversionResult.ok ["in", "a.png"] ⟨["out", "a.avif"], 40⟩
          ⟨["out", "a.png"], 60, "png"⟩ 100 5] ∧
    avifReduction [ConversionResult.ok ["in", "a.png"]
        ⟨["out", "a.avif"], 40⟩ ⟨["out", "a.png"], 60, "png"⟩ 100 5,
      ConversionResult.err ["in", "b.png"] "boom"] =
      avifReduction [ConversionResult.err ["in", "b.png"] "boom",
        ConversionResult.ok ["in", "a.png"] ⟨["out", "a.avif"], 40⟩
          ⟨["out", "a.png"], 60, "png"⟩ 100 5] ∧
    fallbackReduction [ConversionResult.ok ["in", "a.png"]
        ⟨["out", "a.avif"], 40⟩ ⟨["out", "a.png"], 60, "png"⟩ 100 5,
      ConversionResult.err ["in", "b.png"] "boom"] =
      fallbackReduction [ConversionResult.err ["in", "b.png"] "boom",
        ConversionResult.ok ["in", "a.png"] ⟨["out", "a.avif"], 40⟩
          ⟨["out", "a.png"], 60, "png"⟩ 100 5] :=
  summary_perm_invariant _ _
    (List.Perm.swap (ConversionResult.err ["in", "b.png"] "boom")
      (ConversionResult.ok ["in", "a.png"] ⟨["out", "a.avif"], 40⟩
        ⟨["out", "a.png"], 60, "png"⟩ 100 5) [])

/-- Counterexample to C6 as stated: with totalOriginal 1000 bytes and an
artifact total of 1001 bytes the artifact exceeds the original, yet the
computed percentage is `Math.round(-0.1) = 0`, not negative. -/
theorem reduction_small_excess_not_negative :
    1000 < 1001 ∧ reductionPercent 1000 1001 = 0 ∧
    ¬ reductionPercent 1000 1001 < 0 := by
  have h0 : reductionPercent 1000 1001 = 0 := by
    rw [reductionPercent, if_pos (by norm_num), jsRound]
    norm_num
  exact ⟨by norm_num, h0, by rw [h0]; norm_num⟩

/-- C6 (amended): reductionPercent(artifactTotal) equals
round(100 × (1 − artifactTotal / totalOriginal)) when totalOriginal > 0 and 0
otherwise; the value is not clamped at 0 — it is strictly negative whenever
the artifact total exceeds totalOriginal by more than half a percent
(200 × artifactTotal > 201 × totalOriginal) — but an excess of at most half a
percent rounds to 0 rather than a negative value. -/
theorem reduction_percent_formula (t a : Nat) :
    reductionPercent t a =
      (if 0 < t then jsRound (100 * (1 - (a : ℚ) / (t : ℚ))) else 0) ∧
    (0 < t → 201 * t < 200 * a → reductionPercent t a < 0) := by
  constructor
  · rw [reductionPercent, mul_comm]
  · intro ht hgt
    have htq : (0 : ℚ) < (t : ℚ) := by exact_mod_cast ht
    have haq : (201 : ℚ) * (t : ℚ) < 200 * (a : ℚ) := by exact_mod_cast hgt
    simp only [reductionPercent, if_pos ht, jsRound]
    rw [show ((0 : ℤ)) = ((0 : ℤ)) from rfl, Int.floor_lt]
    have key : (1 - (a : ℚ) / (t : ℚ)) * 100 + 1 / 2 =
        (200 * ((t : ℚ) - (a : ℚ)) + (t : ℚ)) / (2 * (t : ℚ)) := by
      field_simp
      ring
    rw [key]
    push_cast
    apply div_neg_of_neg_of_pos
    · linarith
    · linarith

/-- Witness for `reduction_percent_formula`: a doubling artifact yields the
unclamped −100%. -/
theorem reduction_percent_formula_witness :
    reductionPercent 100 200 < 0 :=
  (reduction_percent_formula 100 200).2 (by norm_num) (by norm_num)

/-- String append concatenates the character data. -/
theorem string_data_append (s t : String) : (s ++ t).data = s.data ++ t.data := by
  cases s; cases t; rfl

/-- Strings with equal character data are equal. -/
theorem string_eq_of_data (a b : String) (h : a.data = b.data) : a = b := by
  cases a; cases b; exact congrArg String.mk h

/-- A nonempty string has nonempty character data. -/
theorem data_ne_nil (s : String) (h : s ≠ "") : s.data ≠ [] := by
  intro hd
  exact h (string_eq_of_data s "" (by simpa using hd))

/-- Taking characters while they differ from a dot consumes exactly a
dot-free block up to the first dot. -/
theorem takeWhile_ne_dot (l r : List Char) (h : ∀ c ∈ l, c ≠ '.') :
    (l ++ '.' :: r).takeWhile (fun c => c != '.') = l := by
  induction l with
  | nil => simp [List.takeWhile_cons]
  | cons a t ih =>
    have ha : (a != '.') = true := bne_iff_ne.mpr (h a (by simp))
    rw [List.cons_append,
      @List.takeWhile_cons_of_pos _ (fun c => c != '.') a (t ++ '.' :: r) ha,
      ih (fun c hc => h c (by simp [hc]))]

/-- The character data of `stem ++ "." ++ ext`. -/
theorem concat_dot_data (stem ext : String) :
    (stem ++ "." ++ ext).data = stem.data ++ '.' :: ext.data := by
  rw [string_data_append, string_data_append]
  simp

/-- For a filename `stem.ext` with nonempty stem and dot-free extension,
`path.extname` returns `.ext`. -/
theorem extname_concat (stem ext : String) (hstem : stem ≠ "")
    (hext : ∀ c ∈ ext.data, c ≠ '.') :
    extname (stem ++ "." ++ ext) = "." ++ ext := by
  have hrev : (stem ++ "." ++ ext).data.reverse =
      ext.data.reverse ++ '.' :: stem.data.reverse := by
    rw [concat_dot_data]; simp
  have htake : (stem ++ "." ++ ext).data.reverse.takeWhile
      (fun c => c != '.') = ext.data.reverse := by
    rw [hrev]
    exact takeWhile_ne_dot _ _ (fun c hc => hext c (by simpa using hc))
  have hstemlen : 0 < stem.data.length :=
    List.length_pos.mpr (data_ne_nil stem hstem)
  have hcond : ¬ ((stem ++ "." ++ ext).data.length ≤
      ((stem ++ "." ++ ext).data.reverse.takeWhile
        (fun c => c != '.')).length + 1) := by
    rw [htake, concat_dot_data]
    simp only [List.length_append, List.length_cons, List.length_reverse]
    omega
  simp only [extname, if_neg hcond, htake]
  apply string_eq_of_data
  rw [string_data_append]
  simp
  have hlz : ¬ stem.length = 0 := by
    have hh : stem.length = stem.data.length := rfl
    omega
  rw [if_neg hlz]

/-- For a filename `stem.ext` with nonempty stem, `path.basename` with the
suffix `.ext` strips that suffix, leaving the stem. -/
theorem basenameDrop_strip (stem ext : String) (hstem : stem ≠ "") :
    basenameDrop (stem ++ "." ++ ext) ("." ++ ext) = stem := by
  have hextdata : ("." ++ ext).data = '.' :: ext.data := by
    rw [string_data_append]; rfl
  have hsuffix : ("." ++ ext).data.isSuffixOf (stem ++ "." ++ ext).data = true := by
    rw [List.isSuffixOf_iff_suffix, hextdata, concat_dot_data]
    exact List.suffix_append stem.data ('.' :: ext.data)
  have hne : ((stem ++ "." ++ ext) != ("." ++ ext)) = true := by
    rw [bne_iff_ne]
    intro he
    have := congrArg (fun s => s.data.length) he
    simp only [concat_dot_data, hextdata, List.length_append,
      List.length_cons] at this
    have := List.length_pos.mpr (data_ne_nil stem hstem)
    omega
  simp only [basenameDrop, hsuffix, hne, Bool.and_self, if_pos]
  apply string_eq_of_data
  have hlen : (stem ++ "." ++ ext).data.length - ("." ++ ext).data.length =
      stem.data.length := by
    rw [concat_dot_data, hextdata]
    simp only [List.length_append, List.length_cons]
    omega
  rw [hlen, concat_dot_data]
  exact List.take_left stem.data ('.' :: ext.data)

/-- The basename of a path ending in a filename segment is that segment. -/
theorem pathBasename_concat (p : Path) (fname : String) :
    pathBasename (p ++ [fname]) = fname := by
  simp [pathBasename]

/-- C4: for every successful job, the output paths mirror the input's
relative path: for an input file at `inputRoot ++ rel ++ [stem.ext]` the
primary artifact path is `outputRoot ++ rel ++ [stem.avif]` and the fallback
artifact path is `outputRoot ++ rel ++ [stem.ext]` — the relative path under
output-root equals the relative path under input-root, with only the primary
artifact's extension changed — and a success result of `convertImage` records
exactly those two paths. -/
theorem output_paths_mirror (inputRoot outputRoot rel : Path)
    (stem ext : String) (hstem : stem ≠ "")
    (hext : ∀ c ∈ ext.data, c ≠ '.') :
    relativePathOf (inputRoot ++ rel ++ [stem ++ "." ++ ext]) inputRoot =
      rel ++ [stem ++ "." ++ ext] ∧
    avifPathOf (inputRoot ++ rel ++ [stem ++ "." ++ ext]) inputRoot
        outputRoot = outputRoot ++ rel ++ [stem ++ ".avif"] ∧
    fallbackPathOf (inputRoot ++ rel ++ [stem ++ "." ++ ext]) inputRoot
        outputRoot = outputRoot ++ rel ++ [stem ++ "." ++ ext] ∧
    (∀ (env : ConvEnv) (options : Config) (d : OkData),
      convertImageE env (inputRoot ++ rel ++ [stem ++ "." ++ ext]) inputRoot
          outputRoot options = .ok d →
      d.avif.path = outputRoot ++ rel ++ [stem ++ ".avif"] ∧
      d.fallback.path = outputRoot ++ rel ++ [stem ++ "." ++ ext]) := by
  have hrel : relativePathOf (inputRoot ++ rel ++ [stem ++ "." ++ ext])
      inputRoot = rel ++ [stem ++ "." ++ ext] := by
    rw [relativePathOf, pathRelative, List.append_assoc]
    exact List.drop_left inputRoot (rel ++ [stem ++ "." ++ ext])
  have hdir : outputDirOf (inputRoot ++ rel ++ [stem ++ "." ++ ext])
      inputRoot outputRoot = outputRoot ++ rel := by
    rw [outputDirOf, hrel, ← List.append_assoc]
    exact List.dropLast_concat
  have hbase : pathBasename (inputRoot ++ rel ++ [stem ++ "." ++ ext]) =
      stem ++ "." ++ ext := by
    rw [List.append_assoc, ← List.append_assoc]
    exact pathBasename_concat (inputRoot ++ rel) (stem ++ "." ++ ext)
  have hfile : fileNameOf (inputRoot ++ rel ++ [stem ++ "." ++ ext]) = stem := by
    rw [fileNameOf, hbase, extname_concat stem ext hstem hext,
      basenameDrop_strip stem ext hstem]
  have havif : avifPathOf (inputRoot ++ rel ++ [stem ++ "." ++ ext]) inputRoot
      outputRoot = outputRoot ++ rel ++ [stem ++ ".avif"] := by
    rw [avifPathOf, hdir, hfile, List.append_assoc]
  have hfb : fallbackPathOf (inputRoot ++ rel ++ [stem ++ "." ++ ext])
      inputRoot outputRoot = outputRoot ++ rel ++ [stem ++ "." ++ ext] := by
    rw [fallbackPathOf, hdir, hbase, List.append_assoc]
  refine ⟨hrel, havif, hfb, ?_⟩
  intro env options d hok
  have := convertImageE_ok_paths env _ inputRoot outputRoot options d hok
  rw [havif, hfb] at this
  exact this

/-- Witness for `output_paths_mirror`: input `in/a/b/c.png` maps to
`out/a/b/c.avif` and `out/a/b/c.png`. -/
theorem output_paths_mirror_witness :
    relativePathOf (["in"] ++ ["a", "b"] ++ ["c" ++ "." ++ "png"]) ["in"] =
      ["a", "b"] ++ ["c" ++ "." ++ "png"] ∧
    avifPathOf (["in"] ++ ["a", "b"] ++ ["c" ++ "." ++ "png"]) ["in"]
        ["out"] = ["out"] ++ ["a", "b"] ++ ["c" ++ ".avif"] ∧
    fallbackPathOf (["in"] ++ ["a", "b"] ++ ["c" ++ "." ++ "png"]) ["in"]
        ["out"] = ["out"] ++ ["a", "b"] ++ ["c" ++ "." ++ "png"] :=
  ⟨(output_paths_mirror ["in"] ["out"] ["a", "b"] "c" "png" (by decide)
      (by decide)).1,
    (output_paths_mirror ["in"] ["out"] ["a", "b"] "c" "png" (by decide)
      (by decide)).2.1,
    (output_paths_mirror ["in"] ["out"] ["a", "b"] "c" "png" (by decide)
      (by decide)).2.2.1⟩

end AvifConv
